import Mathlib

/-!
Verification of the tabular analytics core of the GA4 AI dashboard frontend.

The definitions below are a shallow embedding of the TypeScript page component:
cell values, the numeric parse `parseMaybeNumber`, the shared comparator
`compareValues` (its text branch, `String.prototype.localeCompare` with
`numeric: true, sensitivity: "base"`, is modelled by a digit-run-aware,
case-insensitive comparison), duration/number classification
(`parseAnswerNumber`, `parseDurationToSeconds`), the answer block parser
(`parseAnswerBlocks`), the table sort machinery of `ReportPanel` and
`AnswerTable` (`Array.prototype.sort`, which ES2019 requires to be stable, is
modelled by insertion sort), the landing-page ranker (`buildRankedRows`) and
the per-insight follow-up state transitions of `AnswerRenderer`.

Strings are processed as character lists. JavaScript numbers are modelled as
exact fractions (`JsNum`): every number produced by the embedded code is a
decimal with an integer numerator and a positive power-of-ten denominator,
and at the small magnitudes exercised here IEEE doubles compute these values
exactly, so sign tests and comparisons agree with the JavaScript ones.
-/

namespace GA4

open scoped List

/-- An unnormalized fraction `num / den`. Every `JsNum` built by the embedded
code has a positive denominator (a product of powers of ten), so the sign of
the number is the sign of `num` and JavaScript comparisons against `0`
correspond to comparisons of `num` against `0`. -/
structure JsNum where
  num : ℤ
  den : ℤ
deriving DecidableEq

/-- Embed an integer. -/
def JsNum.ofInt (n : ℤ) : JsNum := ⟨n, 1⟩

/-- Embed a natural number. -/
def JsNum.ofNat (n : ℕ) : JsNum := ⟨(n : ℤ), 1⟩

/-- Fraction addition by cross multiplication. -/
def JsNum.add (a b : JsNum) : JsNum := ⟨a.num * b.den + b.num * a.den, a.den * b.den⟩

/-- Fraction subtraction by cross multiplication. -/
def JsNum.sub (a b : JsNum) : JsNum := ⟨a.num * b.den - b.num * a.den, a.den * b.den⟩

/-- Fraction multiplication. -/
def JsNum.mul (a b : JsNum) : JsNum := ⟨a.num * b.num, a.den * b.den⟩

/-- Fraction division (the embedded code only ever divides by positive powers
of ten). -/
def JsNum.div (a b : JsNum) : JsNum := ⟨a.num * b.den, a.den * b.num⟩

/-- Fraction power. -/
def JsNum.pow (a : JsNum) (n : ℕ) : JsNum := ⟨a.num ^ n, a.den ^ n⟩

/-- The ten used for decimal scaling. -/
def JsNum.ten : JsNum := ⟨10, 1⟩

/-- JavaScript values as they occur in report cells: finite numbers, strings,
or null/undefined (both modelled by `null`, as the code only tests `== null`). -/
inductive Value where
  | num (q : JsNum)
  | str (s : String)
  | null
deriving DecidableEq

/-- Model of the JavaScript whitespace class used by `trim` and the regexes. -/
def isWs (c : Char) : Bool := c.isWhitespace

/-- Character-list version of `String.prototype.trim`. -/
def trimChars (l : List Char) : List Char :=
  ((l.dropWhile isWs).reverse.dropWhile isWs).reverse

/-- JavaScript `s.trim()`. -/
def jsTrim (s : String) : String := (trimChars s.toList).asString

/-- Is `p` a literal leading segment of `l`? Models `String.prototype.startsWith`. -/
def hasPrefixCL : List Char → List Char → Bool
  | [], _ => true
  | _ :: _, [] => false
  | p :: ps, c :: cs => p = c && hasPrefixCL ps cs

/-- Numeric value of a digit run. -/
def digitsToNat (ds : List Char) : ℕ :=
  ds.foldl (fun acc c => 10 * acc + (c.toNat - ('0').toNat)) 0

/-- Finish parsing a decimal literal: assemble the value from the integer and
fraction digits and an optional exponent suffix (`e`/`E`, optional sign,
digits). Returns `none` when the remaining characters are not a valid
exponent suffix. -/
def jsNumberFinish (sign : JsNum) (intPart fracPart rest : List Char) : Option JsNum :=
  let base : JsNum :=
    sign.mul ((JsNum.ofNat (digitsToNat intPart)).add
      ((JsNum.ofNat (digitsToNat fracPart)).div (JsNum.ten.pow fracPart.length)))
  match rest with
  | [] => some base
  | e :: cs =>
    if e = 'e' ∨ e = 'E' then
      let signPos : Bool :=
        match cs with
        | '-' :: _ => false
        | _ => true
      let ds : List Char :=
        match cs with
        | '-' :: t => t
        | '+' :: t => t
        | t => t
      if ds ≠ [] ∧ ds.all Char.isDigit then
        some (if signPos then base.mul (JsNum.ten.pow (digitsToNat ds))
              else base.div (JsNum.ten.pow (digitsToNat ds)))
      else none
    else none

/-- Model of the JavaScript `Number(string)` conversion, restricted to decimal
literals: optional sign, digits, optional fraction, optional exponent; the
empty (or all-whitespace) string converts to `0`; everything else is `NaN`,
modelled as `none`. (`Infinity` and hex/octal/binary literals are outside the
modelled domain; no claim exercises them.) -/
def jsNumber (s : String) : Option JsNum :=
  let t := trimChars s.toList
  if t = [] then some (JsNum.ofNat 0)
  else
    let sign : JsNum :=
      match t with
      | '-' :: _ => JsNum.ofInt (-1)
      | _ => JsNum.ofInt 1
    let rest : List Char :=
      match t with
      | '-' :: cs => cs
      | '+' :: cs => cs
      | cs => cs
    let intPart := rest.takeWhile Char.isDigit
    let rest2 := rest.dropWhile Char.isDigit
    match rest2 with
    | '.' :: cs =>
      let fracPart := cs.takeWhile Char.isDigit
      let rest3 := cs.dropWhile Char.isDigit
      if intPart = [] ∧ fracPart = [] then none
      else jsNumberFinish sign intPart fracPart rest3
    | _ =>
      if intPart = [] then none
      else jsNumberFinish sign intPart [] rest2

/-- Remove every occurrence of the listed characters from a string; models
`value.replace(/,/g, "")` and friends. -/
def removeChars (toRemove : List Char) (s : String) : String :=
  (s.toList.filter (fun c => !toRemove.contains c)).asString

/-- `parseMaybeNumber` from the source: a finite number passes through; a
string has commas removed and is trimmed, the empty remainder is `null`,
otherwise it is handed to `Number(...)` with `NaN` mapped to `null`; any
other value is `null`. -/
def parseMaybeNumber : Value → Option JsNum
  | .num q => some q
  | .str s =>
    let normalized := jsTrim (removeChars [','] s)
    if normalized = "" then none
    else jsNumber normalized
  | .null => none

/-- Collation token: a maximal digit run (compared by numeric value, then by
length) or a single lower-cased character. -/
inductive Tok where
  | digits (value len : ℕ)
  | ch (code : ℕ)
deriving DecidableEq

/-- Tokenizer loop: the first argument is the pending digit run (its value
and length so far), the second the remaining characters. -/
def tokenizeGo : Option (ℕ × ℕ) → List Char → List Tok
  | none, [] => []
  | some (v, n), [] => [Tok.digits v n]
  | none, c :: cs =>
    if c.isDigit then tokenizeGo (some (c.toNat - ('0').toNat, 1)) cs
    else Tok.ch c.toLower.toNat :: tokenizeGo none cs
  | some (v, n), c :: cs =>
    if c.isDigit then tokenizeGo (some (10 * v + (c.toNat - ('0').toNat), n + 1)) cs
    else Tok.digits v n :: Tok.ch c.toLower.toNat :: tokenizeGo none cs

/-- Tokenize a character list into maximal digit runs and single characters. -/
def tokenize (l : List Char) : List Tok := tokenizeGo none l

/-- Compare two collation tokens; digit runs sort before other characters. -/
def tokCmp : Tok → Tok → ℤ
  | .digits m ml, .digits n nl =>
    if m < n then -1 else if n < m then 1
    else if ml < nl then -1 else if nl < ml then 1 else 0
  | .digits _ _, .ch _ => -1
  | .ch _, .digits _ _ => 1
  | .ch a, .ch b => if a < b then -1 else if b < a then 1 else 0

/-- Lexicographic comparison of token lists. -/
def tokListCmp : List Tok → List Tok → ℤ
  | [], [] => 0
  | [], _ :: _ => -1
  | _ :: _, [] => 1
  | a :: as, b :: bs => if tokCmp a b = 0 then tokListCmp as bs else tokCmp a b

/-- Model of `a.localeCompare(b, undefined, { numeric: true, sensitivity: "base" })`:
case-insensitive, with embedded digit runs compared by magnitude. -/
def localeCompare (a b : String) : ℤ :=
  tokListCmp (tokenize a.toList) (tokenize b.toList)

/-- Model of the JavaScript `String(v)` coercion. Strings pass through,
`null` prints as "null", integral numbers print exactly; the decimal
formatting of non-integral numbers is not modelled (no claim exercises it). -/
def jsString : Value → String
  | .str s => s
  | .null => "null"
  | .num q =>
    if q.den = 1 then
      (if q.num < 0 then "-" ++ toString q.num.natAbs else toString q.num.natAbs)
    else
      (if q.num < 0 then "-" ++ toString q.num.natAbs else toString q.num.natAbs)
        ++ "/" ++ toString q.den

/-- `compareValues` from the source: nulls sort after everything (two nulls
tie); if both sides parse numerically the result is the numeric difference;
otherwise the string coercions are compared with locale-aware collation. -/
def compareValues (a b : Value) : JsNum :=
  if a = .null ∧ b = .null then JsNum.ofInt 0
  else if a = .null then JsNum.ofInt 1
  else if b = .null then JsNum.ofInt (-1)
  else
    match parseMaybeNumber a, parseMaybeNumber b with
    | some x, some y => x.sub y
    | _, _ => JsNum.ofInt (localeCompare (jsString a) (jsString b))

/-- Numeric value of one decimal digit character. -/
def digitVal (c : Char) : ℕ := c.toNat - ('0').toNat

/-- `parseDurationToSeconds` from the source: the trimmed cell must match
`^(\d{1,2}):(\d{2})(?::(\d{2}))?$` (one- or two-digit hour, two-digit minute,
optional two-digit second); the result is `hours*3600 + minutes*60 + seconds`.
The four shapes below enumerate exactly the strings the anchored regex
accepts. -/
def parseDurationToSeconds (raw : String) : Option ℕ :=
  match trimChars raw.toList with
  | [h1, ':', m1, m2] =>
    if h1.isDigit ∧ m1.isDigit ∧ m2.isDigit then
      some (digitVal h1 * 3600 + (10 * digitVal m1 + digitVal m2) * 60)
    else none
  | [h1, h2, ':', m1, m2] =>
    if h1.isDigit ∧ h2.isDigit ∧ m1.isDigit ∧ m2.isDigit then
      some ((10 * digitVal h1 + digitVal h2) * 3600 + (10 * digitVal m1 + digitVal m2) * 60)
    else none
  | [h1, ':', m1, m2, ':', s1, s2] =>
    if h1.isDigit ∧ m1.isDigit ∧ m2.isDigit ∧ s1.isDigit ∧ s2.isDigit then
      some (digitVal h1 * 3600 + (10 * digitVal m1 + digitVal m2) * 60
        + (10 * digitVal s1 + digitVal s2))
    else none
  | [h1, h2, ':', m1, m2, ':', s1, s2] =>
    if h1.isDigit ∧ h2.isDigit ∧ m1.isDigit ∧ m2.isDigit ∧ s1.isDigit ∧ s2.isDigit then
      some ((10 * digitVal h1 + digitVal h2) * 3600 + (10 * digitVal m1 + digitVal m2) * 60
        + (10 * digitVal s1 + digitVal s2))
    else none
  | _ => none

/-- Remove every whitespace character; models `.replace(/\s+/g, "")`. -/
def removeWs (s : String) : String :=
  (s.toList.filter (fun c => !isWs c)).asString

/-- `parseAnswerNumber` from the source: the empty string is `null`; a
duration-shaped cell is its total seconds; otherwise `%`, `,`, `$` (the
class `[%,$]` includes the comma) and whitespace are stripped and the rest
is handed to `Number(...)`, keeping only finite results. -/
def parseAnswerNumber (raw : String) : Option JsNum :=
  if raw = "" then none
  else
    match parseDurationToSeconds raw with
    | some duration => some (JsNum.ofNat duration)
    | none => jsNumber (removeWs (removeChars ['%', ',', '$'] raw))

/-- One typed display block of a parsed answer. -/
inductive AnswerBlock where
  | heading (text : String)
  | paragraph (text : String)
  | list (items : List String)
  | table (headers : List String) (rows : List (List String))
deriving DecidableEq

/-- Split a character list on a separator character; models
`String.prototype.split` with a one-character separator. -/
def splitCL (sep : Char) : List Char → List (List Char)
  | [] => [[]]
  | c :: cs =>
    if c = sep then [] :: splitCL sep cs
    else
      match splitCL sep cs with
      | [] => [[c]]
      | line :: more => (c :: line) :: more

/-- Split a string into physical lines; models `answer.split(/\r?\n/)`
(a line feed, optionally preceded by a carriage return, separates lines;
a lone carriage return does not). -/
def splitLinesCL : List Char → List (List Char)
  | [] => [[]]
  | '\r' :: '\n' :: rest => [] :: splitLinesCL rest
  | '\n' :: rest => [] :: splitLinesCL rest
  | c :: rest =>
    match splitLinesCL rest with
    | [] => [[c]]
    | line :: more => (c :: line) :: more

/-- The physical lines of an answer. -/
def splitLines (answer : String) : List (List Char) := splitLinesCL answer.toList

/-- `isTableSeparator` from the source: the regex
`^\s*\|?[-:\s|]+\|?\s*$` accepts exactly the nonempty strings made of
`-`, `:`, `|` and whitespace (the optional affixes are subsumed by the
repeated class). -/
def isTableSeparatorCL (l : List Char) : Bool :=
  !l.isEmpty && l.all (fun c => c = '-' || c = ':' || c = '|' || isWs c)

/-- `parseTableRow` from the source: trim the line, strip one optional
leading and one optional trailing `|`, split on `|` and trim every cell. -/
def parseTableRow (l : List Char) : List String :=
  let trimmed := trimChars l
  let normalized := if hasPrefixCL ['|'] trimmed then trimmed.drop 1 else trimmed
  let withoutEdge :=
    match normalized.getLast? with
    | some '|' => normalized.dropLast
    | _ => normalized
  (splitCL '|' withoutEdge).map (fun cell => (trimChars cell).asString)

/-- Heading text: models `trimmed.replace(/^#+\s*/, "")`. -/
def stripHeading (t : List Char) : List Char :=
  if hasPrefixCL ['#'] t then (t.dropWhile (fun c => c = '#')).dropWhile isWs else t

/-- Prepend a character to the first piece of a split result. -/
def consCurrent (c : Char) : List (List Char) → List (List Char)
  | [] => [[c]]
  | h :: t => (c :: h) :: t

/-- Fueled scanner for the item-splitting regexes
`/\s+-\s+|\s+•\s+|•/` (with `withDash := true`, used on bullet-prefixed
lines) and `/\s+•\s+|•/` (with `withDash := false`, used for inline
bullets): at each position the alternatives are tried in order with greedy
whitespace runs, exactly as the regex engine does; on failure the scan
advances one character. Fuel `l.length` always suffices since every step
consumes at least one character. -/
def sbGo (withDash : Bool) : ℕ → List Char → List (List Char)
  | 0, l => [l]
  | _ + 1, [] => [[]]
  | fuel + 1, c :: cs =>
    if c = '•' then [] :: sbGo withDash fuel cs
    else if isWs c then
      match (c :: cs).dropWhile isWs with
      | '-' :: r =>
        if withDash ∧ (r.takeWhile isWs) ≠ [] then [] :: sbGo withDash fuel (r.dropWhile isWs)
        else consCurrent c (sbGo withDash fuel cs)
      | '•' :: r =>
        if (r.takeWhile isWs) ≠ [] then [] :: sbGo withDash fuel (r.dropWhile isWs)
        else consCurrent c (sbGo withDash fuel cs)
      | _ => consCurrent c (sbGo withDash fuel cs)
    else consCurrent c (sbGo withDash fuel cs)

/-- Split a line on bullet-item separators (see `sbGo`). -/
def splitBullets (withDash : Bool) (l : List Char) : List (List Char) :=
  sbGo withDash l.length l

/-- Clean one split piece: models `.replace(/^[-•]\s*/, "").trim()`. -/
def stripBulletItem (l : List Char) : String :=
  let l2 :=
    match l with
    | c :: cs => if c = '-' ∨ c = '•' then cs.dropWhile isWs else l
    | [] => []
  (trimChars l2).asString

/-- Items of one bullet-prefixed line: split, clean, drop empties
(`.filter(Boolean)`). -/
def lineItems (itemLine : List Char) : List String :=
  ((splitBullets true itemLine).map stripBulletItem).filter (fun p => p ≠ "")

/-- Items of an inline-bulleted line (fallback rule): split on the
dash-free pattern, clean, drop empties. -/
def inlineBulletItems (trimmed : List Char) : List String :=
  ((splitBullets false trimmed).map stripBulletItem).filter (fun p => p ≠ "")

/-- Table-body loop of the parser: consume rows until a blank line or the
end of input; each consumed line becomes one parsed row. Returns the rows
and the unconsumed suffix. -/
def takeTableRows : List (List Char) → List (List String) × List (List Char)
  | [] => ([], [])
  | l :: rest =>
    if trimChars l = [] then ([], l :: rest)
    else (parseTableRow l :: (takeTableRows rest).1, (takeTableRows rest).2)

/-- List-block loop of the parser: consume consecutive lines whose trimmed
content starts with a dash-space or a bullet glyph, accumulating their
items. Returns the items and the unconsumed suffix. -/
def takeListItems : List (List Char) → List String × List (List Char)
  | [] => ([], [])
  | l :: rest =>
    if hasPrefixCL ['-', ' '] (trimChars l) || hasPrefixCL ['•'] (trimChars l) then
      (lineItems (trimChars l) ++ (takeListItems rest).1, (takeListItems rest).2)
    else ([], l :: rest)

/-- Paragraph loop of the parser: consume trimmed lines until a blank line,
a heading line, a table-start line (the current line contains `|` and the
next line is a separator) or a line starting with a dash-space. Returns the
consumed trimmed lines and the unconsumed suffix. -/
def takeParagraph : List (List Char) → List (List Char) × List (List Char)
  | [] => ([], [])
  | l :: rest =>
    if trimChars l = [] then ([], l :: rest)
    else if hasPrefixCL ['#', '#'] (trimChars l) then ([], l :: rest)
    else if (trimChars l).contains '|' && isTableSeparatorCL (trimChars (rest.headD [])) then
      ([], l :: rest)
    else if hasPrefixCL ['-', ' '] (trimChars l) then ([], l :: rest)
    else (trimChars l :: (takeParagraph rest).1, (takeParagraph rest).2)

/-- Join paragraph lines with single spaces. -/
def joinSpaceCL : List (List Char) → List Char
  | [] => []
  | [x] => x
  | x :: rest => x ++ ' ' :: joinSpaceCL rest

/-- The main scan of `parseAnswerBlocks`, with explicit fuel standing for
the loop-variant of the source's `while (i < lines.length)` loop: every
iteration consumes at least one line, so `lines.length` fuel suffices
(`parseAnswerBlocks_fuel_independent` below proves this). Branch order is
the source's: blank-skip, heading, table look-ahead, bullet-prefixed list,
inline-bullet list, paragraph. -/
def parseBlocksGo : ℕ → List (List Char) → List AnswerBlock
  | 0, _ => []
  | _ + 1, [] => []
  | fuel + 1, l :: rest =>
    if trimChars l = [] then parseBlocksGo fuel rest
    else if hasPrefixCL ['#', '#'] (trimChars l) then
      AnswerBlock.heading (stripHeading (trimChars l)).asString :: parseBlocksGo fuel rest
    else if (trimChars l).contains '|' && isTableSeparatorCL (trimChars (rest.headD [])) then
      AnswerBlock.table (parseTableRow (trimChars l)) (takeTableRows (rest.drop 1)).1 ::
        parseBlocksGo fuel (takeTableRows (rest.drop 1)).2
    else if hasPrefixCL ['-', ' '] (trimChars l) || hasPrefixCL ['•'] (trimChars l) then
      AnswerBlock.list (takeListItems (l :: rest)).1 ::
        parseBlocksGo fuel (takeListItems (l :: rest)).2
    else if (trimChars l).contains '•' && decide ((inlineBulletItems (trimChars l)).length > 1) then
      AnswerBlock.list (inlineBulletItems (trimChars l)) :: parseBlocksGo fuel rest
    else
      AnswerBlock.paragraph (joinSpaceCL (takeParagraph (l :: rest)).1).asString ::
        parseBlocksGo fuel (takeParagraph (l :: rest)).2

/-- `parseAnswerBlocks` from the source: split into lines and scan. -/
def parseAnswerBlocks (answer : String) : List AnswerBlock :=
  parseBlocksGo (splitLines answer).length (splitLines answer)

/-- The cell value the answer-table renderer displays for column `colIdx` of
a row: `row[cellIdx] ?? ""` (missing trailing cells read as the empty
string at render time; the parsed rows themselves are not padded). -/
def answerCellValue (row : List String) (colIdx : ℕ) : String :=
  (row.get? colIdx).getD ""

/-- Sort direction of a table sort state. -/
inductive SortDirection where
  | asc
  | desc
deriving DecidableEq

/-- `sortConfig` of `ReportPanel`: the sorted column key and direction. -/
structure SortConfig where
  key : String
  direction : SortDirection
deriving DecidableEq

/-- `handleSort` of `ReportPanel`: clicking column `column` toggles the
direction when it is already the sort key and otherwise sorts ascending by
it. -/
def handleSort (column : String) : Option SortConfig → Option SortConfig
  | some prev =>
    if prev.key = column then
      some ⟨column, if prev.direction = .asc then .desc else .asc⟩
    else some ⟨column, .asc⟩
  | none => some ⟨column, .asc⟩

/-- A report row: a JavaScript object, modelled as key/value pairs (first
occurrence of a key wins, as duplicate keys cannot occur in an object). -/
abbrev Row := List (String × Value)

/-- `row[key]`: the value at a key, `undefined` (here `null`) when absent. -/
def rowGet (row : Row) (key : String) : Value :=
  match row.find? (fun kv => kv.1 = key) with
  | some kv => kv.2
  | none => .null

/-- The `asc`/`desc` multiplier applied to nonzero comparator results. -/
def directionMult (d : SortDirection) : JsNum :=
  if d = .asc then JsNum.ofInt 1 else JsNum.ofInt (-1)

/-- The comparator `ReportPanel` passes to `Array.prototype.sort` over
index-augmented rows: the shared `compareValues` on the sort column,
multiplied by the direction, with the original index difference as
tie-break. -/
def reportRowCmp (cfg : SortConfig) (l r : Row × ℕ) : JsNum :=
  let order := compareValues (rowGet l.1 cfg.key) (rowGet r.1 cfg.key)
  if order.num ≠ 0 then order.mul (directionMult cfg.direction)
  else JsNum.ofInt ((l.2 : ℤ) - (r.2 : ℤ))

/-- `rows.map((row, index) => ({ row, index }))`. -/
def withIdx : List α → ℕ → List (α × ℕ)
  | [], _ => []
  | a :: t, n => (a, n) :: withIdx t (n + 1)

/-- The index-augmented sorted rows of `ReportPanel`'s `useMemo` body.
`Array.prototype.sort` is modelled by insertion sort: ES2019 requires the
sort to be stable, and the index tie-break makes the comparator total and
antisymmetric, so every comparison sort complying with the comparator
produces this result. -/
def sortedReportRowsIdx (cfg : SortConfig) (rows : List Row) : List (Row × ℕ) :=
  List.insertionSort (fun l r => (reportRowCmp cfg l r).num ≤ 0) (withIdx rows 0)

/-- `sortedRows` of `ReportPanel`: the rows unchanged without a sort config,
otherwise the index-augmented sort projected back to rows. -/
def sortedReportRows (cfg : Option SortConfig) (rows : List Row) : List Row :=
  match cfg with
  | none => rows
  | some c => (sortedReportRowsIdx c rows).map (fun p => p.1)

/-- `sortConfig` of `AnswerTable`: the sorted column index and direction. -/
structure AnswerSortConfig where
  colIdx : ℕ
  direction : SortDirection
deriving DecidableEq

/-- The comparator `AnswerTable` passes to `Array.prototype.sort`:
`compareValues` on the string cells of the sort column (missing cells read
as `""`), multiplied by the direction, with the index tie-break. -/
def answerRowCmp (cfg : AnswerSortConfig) (l r : List String × ℕ) : JsNum :=
  let order := compareValues (.str (answerCellValue l.1 cfg.colIdx))
    (.str (answerCellValue r.1 cfg.colIdx))
  if order.num ≠ 0 then order.mul (directionMult cfg.direction)
  else JsNum.ofInt ((l.2 : ℤ) - (r.2 : ℤ))

/-- The index-augmented sorted rows of `AnswerTable`'s `useMemo` body. -/
def sortedAnswerRowsIdx (cfg : AnswerSortConfig) (rows : List (List String)) :
    List (List String × ℕ) :=
  List.insertionSort (fun l r => (answerRowCmp cfg l r).num ≤ 0) (withIdx rows 0)

/-- `sortedRows` of `AnswerTable`. -/
def sortedAnswerRows (cfg : Option AnswerSortConfig) (rows : List (List String)) :
    List (List String) :=
  match cfg with
  | none => rows
  | some c => (sortedAnswerRowsIdx c rows).map (fun p => p.1)

/-- Events affecting one table view's sort state: a user click on a column
header, or a change of the underlying table data. -/
inductive TableEvent where
  | sortClick (column : String)
  | dataChange

/-- Is the event a user sort click? -/
def TableEvent.isSortClick : TableEvent → Bool
  | .sortClick _ => true
  | .dataChange => false

/-- Effect of one event on `ReportPanel`'s `sortConfig`: a header click runs
`handleSort`; a data change runs no code path that touches `sortConfig`
(the component has no effect hook on `report.data` and is not keyed, so its
state survives), leaving the state unchanged. -/
def applyTableEvent : TableEvent → Option SortConfig → Option SortConfig
  | .sortClick c, s => handleSort c s
  | .dataChange, s => s

/-- Fold a sequence of events over the sort state. -/
def applyTableEvents (events : List TableEvent) (s : Option SortConfig) : Option SortConfig :=
  events.foldl (fun st e => applyTableEvent e st) s

/-- `String(v ?? "")`: the display coercion applied to possibly-missing
values by the ranker. -/
def displayString : Value → String
  | .null => ""
  | v => jsString v

/-- A row as mapped by the ranker: display label, raw value, parsed value. -/
structure RankedRow where
  label : String
  rawValue : Value
  numericValue : Option JsNum
deriving DecidableEq

/-- The `.map` stage of `buildRankedRows`. -/
def rankMapRow (pageKey valueKey : String) (row : Row) : RankedRow :=
  { label := displayString (rowGet row pageKey)
  , rawValue := rowGet row valueKey
  , numericValue := parseMaybeNumber (rowGet row valueKey) }

/-- The zero-exclusion filter of `buildRankedRows`: without `excludeZero`
everything passes; with it, rows whose parsed value is `null` pass and rows
with a parsed value pass exactly when that value is not (numerically) zero. -/
def rankKeep (excludeZero : Bool) (r : RankedRow) : Bool :=
  if !excludeZero then true
  else
    match r.numericValue with
    | none => true
    | some q => decide (q.num ≠ 0)

/-- The map and two filter stages of `buildRankedRows`: map rows, drop rows
with an empty trimmed label, apply the zero-exclusion filter. -/
def rankFilterStage (data : List Row) (pageKey valueKey : String) (excludeZero : Bool) :
    List RankedRow :=
  ((data.map (rankMapRow pageKey valueKey)).filter
    (fun r => decide (0 < (jsTrim r.label).length))).filter (rankKeep excludeZero)

/-- The ranker's sort comparator: `compareValues` on the raw values, negated
for descending order. -/
def rankCmp (direction : SortDirection) (a b : RankedRow) : JsNum :=
  let order := compareValues a.rawValue b.rawValue
  if direction = .asc then order else (JsNum.ofInt 0).sub order

/-- `buildRankedRows` from the source: map, filter empties and (optionally)
zeros, stable-sort by the raw value, truncate to `limit`, and project to
display label/value pairs. -/
def buildRankedRows (data : List Row) (pageKey valueKey : String)
    (direction : SortDirection) (limit : ℕ) (excludeZero : Bool) :
    List (String × String) :=
  (((List.insertionSort (fun a b => (rankCmp direction a b).num ≤ 0)
      (rankFilterStage data pageKey valueKey excludeZero)).take limit).map
    (fun r => (r.label, displayString r.rawValue)))

/-- The two insight follow-up actions. -/
inductive FollowupAction where
  | basis
  | deepDive
deriving DecidableEq

/-- `InsightFollowupState` from the source (all fields optional). -/
structure FollowupState where
  loading : Option FollowupAction := none
  basis : Option String := none
  deepDive : Option String := none
  error : Option String := none
deriving DecidableEq

/-- The follow-up map `insightFollowups`, keyed by insight id. -/
def FollowupMap := String → Option FollowupState

/-- The initial (and reset) state: `{}`. -/
def emptyFollowups : FollowupMap := fun _ => none

/-- `{ ...prev, [id]: st }`. -/
def mapSet (m : FollowupMap) (id : String) (st : FollowupState) : FollowupMap :=
  fun k => if k = id then some st else m k

/-- `prev[insightId] ?? {}`. -/
def getOrEmpty (m : FollowupMap) (id : String) : FollowupState :=
  (m id).getD {}

/-- The request-start update of `handleInsightFollowup`: set the id's
loading flag and clear its error, preserving its other fields and every
other id. -/
def followupStart (id : String) (action : FollowupAction) (m : FollowupMap) : FollowupMap :=
  mapSet m id { getOrEmpty m id with loading := some action, error := none }

/-- The success update of `handleInsightFollowup`: clear loading and error
and store the answer under the acted-on field, preserving the other field
and every other id. -/
def followupSuccess (id : String) (action : FollowupAction) (answerText : String)
    (m : FollowupMap) : FollowupMap :=
  mapSet m id
    { loading := none
    , error := none
    , basis := if action = .basis then some answerText else (getOrEmpty m id).basis
    , deepDive := if action = .deepDive then some answerText else (getOrEmpty m id).deepDive }

/-- The failure update of `handleInsightFollowup`: clear loading, set the
error message, preserving stored results and every other id. -/
def followupFailure (id : String) (message : String) (m : FollowupMap) : FollowupMap :=
  mapSet m id { getOrEmpty m id with loading := none, error := some message }

/-- The lifecycle state of the answer area of `HomePage`. `AnswerRenderer`
is rendered conditionally (`{answer && <AnswerRenderer ...>}`), so an
instance exists only while an answer is shown. `gen` identifies the
currently (or most recently) mounted instance — it is bumped on every
mount, since each mount creates a new component instance; `mounted` records
whether one is mounted; `followups` is the mounted instance's
`insightFollowups` state. -/
structure AnswerArea where
  gen : ℕ
  mounted : Bool
  followups : FollowupMap

/-- `setAnswer(null)` at the start of `handleAsk`/`handleQuickPrompt`
(before the analysis call is awaited): the conditional render drops
`AnswerRenderer`, unmounting it and destroying its follow-up state. -/
def answerClear (s : AnswerArea) : AnswerArea :=
  { s with mounted := false, followups := emptyFollowups }

/-- `setAnswer(result.answer)` (or the error text) after the analysis call
resolves: the conditional render mounts a fresh `AnswerRenderer` instance —
a new identity, whose `useState({})` starts the follow-up map empty (the
`useEffect` on `[answer]` then sets `{}` again, a no-op). -/
def answerShow (s : AnswerArea) : AnswerArea :=
  { gen := s.gen + 1, mounted := true, followups := emptyFollowups }

/-- A top-level answer replacement as the program performs it: both
`handleAsk` and `handleQuickPrompt` first set the answer to `null` and only
later store the new answer, so the renderer unmounts and a fresh instance
mounts. -/
def replaceAnswer (s : AnswerArea) : AnswerArea := answerShow (answerClear s)

/-- A `setInsightFollowups` call issued by a closure of instance `g`: React
applies a state update only when the instance that owns the hook is still
the mounted one; an update addressed to an unmounted or superseded instance
is discarded. -/
def applyIfLive (g : ℕ) (f : FollowupMap → FollowupMap) (s : AnswerArea) : AnswerArea :=
  if s.mounted = true ∧ s.gen = g then { s with followups := f s.followups } else s

/-- The request-start update of `handleInsightFollowup`, issued by the
click handler of instance `g`. -/
def liveFollowupStart (g : ℕ) (id : String) (action : FollowupAction)
    (s : AnswerArea) : AnswerArea :=
  applyIfLive g (followupStart id action) s

/-- The success continuation of `handleInsightFollowup` of instance `g`,
reached when its analysis request resolves. -/
def liveFollowupSuccess (g : ℕ) (id : String) (action : FollowupAction)
    (answerText : String) (s : AnswerArea) : AnswerArea :=
  applyIfLive g (followupSuccess id action answerText) s

/-- The failure continuation of `handleInsightFollowup` of instance `g`. -/
def liveFollowupFailure (g : ℕ) (id : String) (message : String)
    (s : AnswerArea) : AnswerArea :=
  applyIfLive g (followupFailure id message) s

/-! ## Theorems -/

/-- A discarded-or-applied update never changes the instance identity. -/
theorem applyIfLive_gen (g : ℕ) (f : FollowupMap → FollowupMap) (s : AnswerArea) :
    (applyIfLive g f s).gen = s.gen := by
  simp only [applyIfLive]
  split <;> rfl

/-- An update addressed to an instance other than the mounted one is
discarded. -/
theorem applyIfLive_stale (g : ℕ) (f : FollowupMap → FollowupMap) (s : AnswerArea)
    (h : s.gen ≠ g) : applyIfLive g f s = s := by
  simp only [applyIfLive]
  rw [if_neg]
  intro hc
  exact h hc.2

/-- Every element of an indexed list carries an index at least the start. -/
theorem withIdx_mem_le (l : List α) (n : ℕ) (c : α × ℕ) (h : c ∈ withIdx l n) :
    n ≤ c.2 := by
  induction l generalizing n with
  | nil => simp [withIdx] at h
  | cons a t ih =>
    simp only [withIdx, List.mem_cons] at h
    rcases h with rfl | h
    · exact Nat.le_refl n
    · exact Nat.le_of_succ_le (ih (n + 1) h)

/-- In an indexed list, a two-element sublist has strictly increasing
indices. -/
theorem withIdx_pair_lt (l : List α) (n : ℕ) (a b : α × ℕ)
    (h : [a, b] <+ withIdx l n) : a.2 < b.2 := by
  induction l generalizing n with
  | nil => simp [withIdx] at h
  | cons x t ih =>
    simp only [withIdx] at h
    cases h with
    | cons _ h2 => exact ih (n + 1) h2
    | cons₂ _ h2 =>
      have hb : b ∈ withIdx t (n + 1) := List.singleton_sublist.mp h2
      have := withIdx_mem_le t (n + 1) b hb
      omega

/-- Dropping the indices recovers the original list. -/
theorem withIdx_map_fst (l : List α) (n : ℕ) :
    (withIdx l n).map (fun p => p.1) = l := by
  induction l generalizing n with
  | nil => rfl
  | cons a t ih => simp [withIdx, ih]

/-- C10: for every sort configuration, the sorted view each table renders is
a permutation of its input rows (same elements, same multiplicities, same
length); the input row list itself is a value the sort never modifies (the
code sorts a freshly mapped index-augmented copy). -/
theorem table_sorts_perm :
    (∀ (cfg : Option SortConfig) (rows : List Row),
      (sortedReportRows cfg rows).Perm rows) ∧
    (∀ (cfg : Option AnswerSortConfig) (rows : List (List String)),
      (sortedAnswerRows cfg rows).Perm rows) := by
  constructor
  · intro cfg rows
    cases cfg with
    | none => exact List.Perm.refl rows
    | some c =>
      have h1 : (sortedReportRowsIdx c rows).Perm (withIdx rows 0) :=
        List.perm_insertionSort _ _
      have h2 := h1.map (fun p => p.1)
      rw [withIdx_map_fst] at h2
      exact h2
  · intro cfg rows
    cases cfg with
    | none => exact List.Perm.refl rows
    | some c =>
      have h1 : (sortedAnswerRowsIdx c rows).Perm (withIdx rows 0) :=
        List.perm_insertionSort _ _
      have h2 := h1.map (fun p => p.1)
      rw [withIdx_map_fst] at h2
      exact h2

/-- C8: both table sorts are stable: two indexed rows that appear in order
in the input and whose sort-column values compare equal (comparator result
numerically zero) appear in the same order in the sorted result, for the
report table and the parsed answer table alike. -/
theorem table_sorts_stable :
    (∀ (cfg : SortConfig) (rows : List Row) (a b : Row × ℕ),
      [a, b] <+ withIdx rows 0 →
      (compareValues (rowGet a.1 cfg.key) (rowGet b.1 cfg.key)).num = 0 →
      [a, b] <+ sortedReportRowsIdx cfg rows) ∧
    (∀ (cfg : AnswerSortConfig) (rows : List (List String)) (a b : List String × ℕ),
      [a, b] <+ withIdx rows 0 →
      (compareValues (.str (answerCellValue a.1 cfg.colIdx))
        (.str (answerCellValue b.1 cfg.colIdx))).num = 0 →
      [a, b] <+ sortedAnswerRowsIdx cfg rows) := by
  constructor
  · intro cfg rows a b hsub h0
    have hlt := withIdx_pair_lt rows 0 a b hsub
    have hr : (reportRowCmp cfg a b).num ≤ 0 := by
      simp only [reportRowCmp, h0, ne_eq, not_true_eq_false, if_false, JsNum.ofInt]
      omega
    exact List.pair_sublist_insertionSort hr hsub
  · intro cfg rows a b hsub h0
    have hlt := withIdx_pair_lt rows 0 a b hsub
    have hr : (answerRowCmp cfg a b).num ≤ 0 := by
      simp only [answerRowCmp, h0, ne_eq, not_true_eq_false, if_false, JsNum.ofInt]
      omega
    exact List.pair_sublist_insertionSort hr hsub

/-- C8 witness: the spec's stability example, with rows keyed by `k` having
values 1, 1, 2: the two tied rows keep their original order after sorting
ascending by `k`. -/
theorem table_sorts_stable_witness :
    ([([(("k"), Value.str ("1")), (("x"), Value.str ("p"))], 0),
      ([(("k"), Value.str ("1")), (("x"), Value.str ("q"))], 1)] <+
      withIdx [[(("k"), Value.str ("1")), (("x"), Value.str ("p"))],
        [(("k"), Value.str ("1")), (("x"), Value.str ("q"))],
        [(("k"), Value.str ("2")), (("x"), Value.str ("r"))]] 0) ∧
    (compareValues (rowGet [(("k"), Value.str ("1")), (("x"), Value.str ("p"))] ("k"))
      (rowGet [(("k"), Value.str ("1")), (("x"), Value.str ("q"))] ("k"))).num = 0 ∧
    ([([(("k"), Value.str ("1")), (("x"), Value.str ("p"))], 0),
      ([(("k"), Value.str ("1")), (("x"), Value.str ("q"))], 1)] <+
      sortedReportRowsIdx ⟨("k"), SortDirection.asc⟩
        [[(("k"), Value.str ("1")), (("x"), Value.str ("p"))],
          [(("k"), Value.str ("1")), (("x"), Value.str ("q"))],
          [(("k"), Value.str ("2")), (("x"), Value.str ("r"))]]) := by
  refine ⟨?_, by decide, ?_⟩
  · exact List.Sublist.cons₂ _ (List.Sublist.cons₂ _ (List.Sublist.cons _ List.Sublist.slnil))
  · exact table_sorts_stable.1 ⟨("k"), SortDirection.asc⟩ _ _ _
      (List.Sublist.cons₂ _ (List.Sublist.cons₂ _ (List.Sublist.cons _ List.Sublist.slnil)))
      (by decide)

/-- The table-body loop never lengthens the remaining input. -/
theorem takeTableRows_suffix_le (ls : List (List Char)) :
    (takeTableRows ls).2.length ≤ ls.length := by
  induction ls with
  | nil => simp [takeTableRows]
  | cons l rest ih =>
    simp only [takeTableRows]
    split
    · simp
    · simpa using Nat.le_succ_of_le ih

/-- The list-block loop never lengthens the remaining input. -/
theorem takeListItems_suffix_le (ls : List (List Char)) :
    (takeListItems ls).2.length ≤ ls.length := by
  induction ls with
  | nil => simp [takeListItems]
  | cons l rest ih =>
    simp only [takeListItems]
    split
    · simpa using Nat.le_succ_of_le ih
    · simp

/-- The paragraph loop never lengthens the remaining input. -/
theorem takeParagraph_suffix_le (ls : List (List Char)) :
    (takeParagraph ls).2.length ≤ ls.length := by
  induction ls with
  | nil => simp [takeParagraph]
  | cons l rest ih =>
    simp only [takeParagraph]
    split
    · simp
    · split
      · simp
      · split
        · simp
        · split
          · simp
          · simpa using Nat.le_succ_of_le ih

/-- When the first line is bullet-prefixed, the list-block loop consumes it. -/
theorem takeListItems_cons_of_bullet (l : List Char) (rest : List (List Char))
    (h : (hasPrefixCL ['-', ' '] (trimChars l) || hasPrefixCL ['•'] (trimChars l)) = true) :
    (takeListItems (l :: rest)).2 = (takeListItems rest).2 := by
  simp [takeListItems, h]

/-- When none of the stop conditions holds, the paragraph loop consumes the
first line. -/
theorem takeParagraph_cons_of_open (l : List Char) (rest : List (List Char))
    (h1 : ¬trimChars l = [])
    (h2 : ¬hasPrefixCL ['#', '#'] (trimChars l) = true)
    (h3 : ¬((trimChars l).contains '|' && isTableSeparatorCL (trimChars (rest.headD []))) = true)
    (h4 : ¬hasPrefixCL ['-', ' '] (trimChars l) = true) :
    (takeParagraph (l :: rest)).2 = (takeParagraph rest).2 := by
  simp only [takeParagraph]
  rw [if_neg h1, if_neg h2, if_neg h3, if_neg h4]

/-- Any sufficient fuel computes the same block list: every iteration of the
scan consumes at least one line, so `ls.length` is a loop variant. -/
theorem parseBlocksGo_fuel_eq :
    ∀ (f g : ℕ) (ls : List (List Char)), ls.length ≤ f → ls.length ≤ g →
      parseBlocksGo f ls = parseBlocksGo g ls := by
  intro f
  induction f with
  | zero =>
    intro g ls hf _
    have : ls = [] := List.length_eq_zero.mp (Nat.le_zero.mp hf)
    subst this
    cases g <;> rfl
  | succ f ih =>
    intro g ls hf hg
    cases ls with
    | nil => cases g <;> rfl
    | cons l rest =>
      cases g with
      | zero => simp at hg
      | succ g' =>
        have hrf : rest.length ≤ f := by simpa using hf
        have hrg : rest.length ≤ g' := by simpa using hg
        simp only [parseBlocksGo]
        split_ifs with h1 h2 h3 h4 h5
        · exact ih g' rest hrf hrg
        · rw [ih g' rest hrf hrg]
        · have hlen : (takeTableRows (rest.drop 1)).2.length ≤ rest.length := by
            have := takeTableRows_suffix_le (rest.drop 1)
            have hd := List.length_drop 1 rest
            omega
          rw [ih g' (takeTableRows (rest.drop 1)).2 (le_trans hlen hrf) (le_trans hlen hrg)]
        · have hlen : (takeListItems (l :: rest)).2.length ≤ rest.length := by
            rw [takeListItems_cons_of_bullet l rest h4]
            exact takeListItems_suffix_le rest
          rw [ih g' (takeListItems (l :: rest)).2 (le_trans hlen hrf) (le_trans hlen hrg)]
        · rw [ih g' rest hrf hrg]
        · have hlen : (takeParagraph (l :: rest)).2.length ≤ rest.length := by
            have h4s : hasPrefixCL ['-', ' '] (trimChars l) = false ∧
                hasPrefixCL ['•'] (trimChars l) = false := by
              simpa [Bool.or_eq_true] using h4
            rw [takeParagraph_cons_of_open l rest h1 h2 h3 (by simp [h4s.1])]
            exact takeParagraph_suffix_le rest
          rw [ih g' (takeParagraph (l :: rest)).2 (le_trans hlen hrf) (le_trans hlen hrg)]

/-- C6: the block parser is a total, deterministic, pure function: it is a
terminating computation for every input string, and any fuel at least the
number of physical lines — i.e. letting the scan run to completion — yields
the same ordered block list, because every loop iteration consumes at least
one line. -/
theorem parseAnswerBlocks_fuel_independent (answer : String) (fuel : ℕ)
    (h : (splitLines answer).length ≤ fuel) :
    parseBlocksGo fuel (splitLines answer) = parseAnswerBlocks answer :=
  parseBlocksGo_fuel_eq fuel (splitLines answer).length (splitLines answer) h (Nat.le_refl _)

/-- C6 witness: on a concrete two-line answer, oversupplied fuel computes
exactly the parse. -/
theorem parseAnswerBlocks_fuel_independent_witness :
    (splitLines ("## Hi\n- a")).length ≤ 7 ∧
    parseBlocksGo 7 (splitLines ("## Hi\n- a")) = parseAnswerBlocks ("## Hi\n- a") :=
  ⟨by decide, parseAnswerBlocks_fuel_independent ("## Hi\n- a") 7 (by decide)⟩

/-- A nonempty pattern only prefixes a nonempty list. -/
theorem hasPrefixCL_ne_nil (p : Char) (ps l : List Char)
    (h : hasPrefixCL (p :: ps) l = true) : l ≠ [] := by
  intro hn
  subst hn
  simp [hasPrefixCL] at h

/-- C5 counterexample: a paragraph run absorbs a following line that begins
with a bullet glyph — the two-line input parses to a single paragraph block
containing the bullet line, with no list block. -/
theorem paragraph_absorbs_bullet_line :
    parseAnswerBlocks ("hello\n• a • b") = [AnswerBlock.paragraph ("hello • a • b")] ∧
    hasPrefixCL ['•'] (trimChars ("• a • b").toList) = true := by
  constructor
  · decide
  · decide

/-- C5 amended: a paragraph run stops exactly at a blank line, a heading
line, a table-start line (the current line contains a pipe and the next
line is a separator), or a line starting with a dash and a space; a line
beginning with a bullet glyph that is not also a table start does not stop
the run and is absorbed. -/
theorem paragraph_stop_characterization (l : List Char) (rest : List (List Char)) :
    ((takeParagraph (l :: rest)).1 = [] ↔
      (trimChars l = [] ∨ hasPrefixCL ['#', '#'] (trimChars l) = true ∨
        ((trimChars l).contains '|' && isTableSeparatorCL (trimChars (rest.headD []))) = true ∨
        hasPrefixCL ['-', ' '] (trimChars l) = true)) ∧
    (hasPrefixCL ['•'] (trimChars l) = true →
      ¬((trimChars l).contains '|' && isTableSeparatorCL (trimChars (rest.headD []))) = true →
      (takeParagraph (l :: rest)).1 ≠ []) := by
  have hiff : (takeParagraph (l :: rest)).1 = [] ↔
      (trimChars l = [] ∨ hasPrefixCL ['#', '#'] (trimChars l) = true ∨
        ((trimChars l).contains '|' && isTableSeparatorCL (trimChars (rest.headD []))) = true ∨
        hasPrefixCL ['-', ' '] (trimChars l) = true) := by
    simp only [takeParagraph]
    split_ifs with h1 h2 h3 h4
    · exact iff_of_true rfl (Or.inl h1)
    · exact iff_of_true rfl (Or.inr (Or.inl h2))
    · exact iff_of_true rfl (Or.inr (Or.inr (Or.inl h3)))
    · exact iff_of_true rfl (Or.inr (Or.inr (Or.inr h4)))
    · refine iff_of_false (by simp) ?_
      rintro (h | h | h | h)
      · exact h1 h
      · exact h2 h
      · exact h3 h
      · exact h4 h
  refine ⟨hiff, ?_⟩
  intro hb ht habs
  rcases hiff.mp habs with h | h | h | h
  · exact hasPrefixCL_ne_nil '•' [] (trimChars l) hb h
  · cases hl : trimChars l with
    | nil => exact hasPrefixCL_ne_nil '•' [] (trimChars l) hb hl
    | cons c cs =>
      rw [hl] at hb h
      simp [hasPrefixCL] at hb h
      exact absurd (h.1.trans hb.symm) (by decide)
  · exact ht h
  · cases hl : trimChars l with
    | nil => exact hasPrefixCL_ne_nil '•' [] (trimChars l) hb hl
    | cons c cs =>
      rw [hl] at hb h
      simp [hasPrefixCL] at hb h
      exact absurd (h.1.trans hb.symm) (by decide)

/-- C5 witness: a concrete bullet-glyph line is consumed by the paragraph
loop rather than stopping it. -/
theorem paragraph_stop_characterization_witness :
    hasPrefixCL ['•'] (trimChars ("• a b").toList) = true ∧
    ¬((trimChars ("• a b").toList).contains '|' &&
      isTableSeparatorCL (trimChars (([] : List (List Char)).headD []))) = true ∧
    (takeParagraph [("• a b").toList]).1 ≠ [] :=
  ⟨by decide, by decide,
    (paragraph_stop_characterization (("• a b").toList) []).2 (by decide) (by decide)⟩

/-- C4 counterexample: a table body line with fewer cells than the header
produces a row shorter than the headers — rows are not padded to the header
length. -/
theorem table_rows_not_padded :
    parseAnswerBlocks ("A|B\n-|-\n1") = [AnswerBlock.table [("A"), ("B")] [[("1")]]] ∧
    ¬∀ row ∈ [[("1")]], (row : List String).length = ([("A"), ("B")] : List String).length := by
  constructor
  · decide
  · decide

/-- C4 amended: parsed table rows keep exactly the cells split from their
source line, without padding; the missing trailing cells are supplied as the
empty string only at render time, where the answer-table renderer reads cell
`colIdx` of a row as `row[colIdx] ?? ""`. -/
theorem answerCellValue_pads_missing (row : List String) (colIdx : ℕ)
    (h : row.length ≤ colIdx) : answerCellValue row colIdx = "" := by
  simp [answerCellValue, List.getElem?_eq_none h]

/-- C4 witness: the renderer reads the missing second cell of the one-cell
row as the empty string. -/
theorem answerCellValue_pads_missing_witness :
    ([("1")] : List String).length ≤ 1 ∧ answerCellValue [("1")] 1 = "" :=
  ⟨by decide, answerCellValue_pads_missing [("1")] 1 (by decide)⟩

/-- C2 amended: whenever both raw values parse numerically under the
comparator's own numeric parse (`parseMaybeNumber`: comma stripping and
trimming followed by a decimal parse — durations, `%` and `$` are not
recognized there), the shared comparator returns exactly their numeric
difference. -/
theorem compareValues_on_parsed (a b : Value) (x y : JsNum)
    (ha : parseMaybeNumber a = some x) (hb : parseMaybeNumber b = some y) :
    compareValues a b = x.sub y := by
  have hna : a ≠ .null := by
    intro hn
    subst hn
    simp [parseMaybeNumber] at ha
  have hnb : b ≠ .null := by
    intro hn
    subst hn
    simp [parseMaybeNumber] at hb
  simp [compareValues, hna, hnb, ha, hb]

/-- C2 witness: two comma-formatted numeric cells compare by numeric
difference. -/
theorem compareValues_on_parsed_witness :
    parseMaybeNumber (Value.str ("2")) = some (JsNum.ofNat 2) ∧
    parseMaybeNumber (Value.str ("1,000")) = some (JsNum.ofNat 1000) ∧
    compareValues (Value.str ("2")) (Value.str ("1,000")) = (JsNum.ofNat 2).sub (JsNum.ofNat 1000) :=
  ⟨by decide, by decide,
    compareValues_on_parsed (Value.str ("2")) (Value.str ("1,000")) (JsNum.ofNat 2)
      (JsNum.ofNat 1000) (by decide) (by decide)⟩

/-- C2 counterexample: `"0:30"` and `"100"` both classify to numbers under
the spec's classify rules (`parseAnswerNumber`: 1800 and 100 — positive
difference), yet the comparator used by the sortable tables falls back to
text collation and returns a negative result. -/
theorem compareValues_not_spec_numeric_order :
    parseAnswerNumber ("0:30") = some (JsNum.ofNat 1800) ∧
    parseAnswerNumber ("100") = some (JsNum.ofNat 100) ∧
    0 < ((JsNum.ofNat 1800).sub (JsNum.ofNat 100)).num ∧
    (compareValues (Value.str ("0:30")) (Value.str ("100"))).num < 0 := by
  refine ⟨by decide, by decide, by decide, by decide⟩

/-- C3 counterexample: `"05:00"` does not classify to 300 — the duration
regex reads it as hours:minutes. -/
theorem classify_five_colon_zero_zero :
    parseAnswerNumber ("05:00") = some (JsNum.ofNat 18000) ∧
    (JsNum.ofNat 18000) ≠ (JsNum.ofNat 300) := by
  constructor
  · decide
  · decide

/-- C3 amended: `classify("1:02:03") = 3723`; `classify("05:00") = 18000`
(the `H:MM` form is hours and minutes, `5*3600`); `"12"` (no colon) is not
duration-shaped and classifies via plain numeric stripping to `12`. -/
theorem classify_duration_examples :
    parseAnswerNumber ("1:02:03") = some (JsNum.ofNat 3723) ∧
    parseAnswerNumber ("05:00") = some (JsNum.ofNat 18000) ∧
    parseDurationToSeconds ("12") = none ∧
    parseAnswerNumber ("12") = some (JsNum.ofNat 12) := by
  refine ⟨by decide, by decide, by decide, by decide⟩

/-- C9 counterexample: with `excludeZero = true`, a row whose value `"0%"`
classifies to zero under the spec's classify rules (`parseAnswerNumber`) is
nonetheless kept and ranked. -/
theorem ranker_keeps_spec_zero_value :
    buildRankedRows [[(("page"), Value.str ("a")), (("val"), Value.str ("0%"))]]
      ("page") ("val") SortDirection.asc 5 true = [(("a"), ("0%"))] ∧
    parseAnswerNumber ("0%") = some (JsNum.ofNat 0) := by
  constructor
  · decide
  · decide

/-- C9 amended: with `excludeZero = true`, a mapped row survives the
ranker's exclusion filters iff its trimmed label is nonempty and its value
does not parse to zero under the ranker's own numeric parse
(`parseMaybeNumber`, which strips commas and trims but does not recognize
`%`, `$` or durations); rows with non-numeric values always survive the
zero filter. -/
theorem ranker_zero_filter_characterization (data : List Row) (pageKey valueKey : String)
    (r : RankedRow) :
    r ∈ rankFilterStage data pageKey valueKey true ↔
      (r ∈ data.map (rankMapRow pageKey valueKey) ∧ 0 < (jsTrim r.label).length ∧
        ∀ q, parseMaybeNumber r.rawValue = some q → q.num ≠ 0) := by
  constructor
  · intro h
    simp only [rankFilterStage, List.mem_filter] at h
    obtain ⟨⟨hmem, hlabel⟩, hkeep⟩ := h
    refine ⟨hmem, by simpa using hlabel, ?_⟩
    intro q hq
    obtain ⟨row, _, rfl⟩ := List.mem_map.mp hmem
    have hq2 : (rankMapRow pageKey valueKey row).numericValue = some q := hq
    simp only [rankKeep] at hkeep
    rw [hq2] at hkeep
    simpa using hkeep
  · intro ⟨hmem, hlabel, hzero⟩
    simp only [rankFilterStage, List.mem_filter]
    refine ⟨⟨hmem, by simpa using hlabel⟩, ?_⟩
    obtain ⟨row, _, rfl⟩ := List.mem_map.mp hmem
    simp only [rankKeep]
    cases hq : (rankMapRow pageKey valueKey row).numericValue with
    | none => simp
    | some q =>
      have hz : q.num ≠ 0 := hzero q hq
      simp [hz]

/-- C9 witness: the row with the non-numeric value `"N/A"` survives the
exclusion filters, via the amended characterization. -/
theorem ranker_zero_filter_characterization_witness :
    rankMapRow ("page") ("val") [(("page"), Value.str ("c")), (("val"), Value.str ("N/A"))] ∈
      rankFilterStage [[(("page"), Value.str ("c")), (("val"), Value.str ("N/A"))]]
        ("page") ("val") true :=
  (ranker_zero_filter_characterization
      [[(("page"), Value.str ("c")), (("val"), Value.str ("N/A"))]] ("page") ("val") _).mpr
    ⟨by decide, by decide, fun q hq =>
      absurd ((by decide : parseMaybeNumber (Value.str ("N/A")) = none).symm.trans hq)
        (by simp)⟩

/-- C7 counterexample: after a user sorts by column A, a change of the
underlying table data leaves the sort state in place — it is not reset to
unsorted. -/
theorem sort_state_persists_across_data_change :
    applyTableEvents [TableEvent.sortClick ("A"), TableEvent.dataChange] none
      = some ⟨("A"), SortDirection.asc⟩ ∧
    (some (⟨("A"), SortDirection.asc⟩ : SortConfig) ≠ none) := by
  constructor
  · decide
  · decide

/-- C7 amended: the sort state of a table view is a function of the user
sort clicks alone — data-change events never alter it (the report panel
keeps its sort config when the underlying report data changes), and no
other event touches it. -/
theorem sort_state_only_clicks (events : List TableEvent) (s : Option SortConfig) :
    applyTableEvents events s = applyTableEvents (events.filter TableEvent.isSortClick) s := by
  induction events generalizing s with
  | nil => rfl
  | cons e t ih =>
    cases e with
    | sortClick c =>
      simp only [applyTableEvents, List.foldl_cons, List.filter_cons_of_pos,
        TableEvent.isSortClick]
      exact ih (applyTableEvent (.sortClick c) s)
    | dataChange =>
      simp only [applyTableEvents, List.foldl_cons, List.filter_cons_of_neg,
        TableEvent.isSortClick, applyTableEvent]
      exact ih s

/-- C1: from any state with a mounted renderer, starting a follow-up for an
insight id of the current answer (the request really starts: the id's
loading flag is set), then replacing the top-level answer before the request
completes, makes the eventual completion — success or failure alike — a
discarded no-op: the answer replacement unmounts the renderer and mounts a
fresh instance, the stale update is addressed to the superseded instance,
and the follow-up state map stays exactly as the answer change left it,
which holds no basis/deepDive result, no error and no loading flag for the
old id. -/
theorem followup_completion_after_replace_discarded
    (s : AnswerArea) (id : String) (action : FollowupAction) (text message : String)
    (h : s.mounted = true) :
    (liveFollowupStart s.gen id action s).followups id
      = some { getOrEmpty s.followups id with loading := some action, error := none } ∧
    liveFollowupSuccess s.gen id action text
        (replaceAnswer (liveFollowupStart s.gen id action s))
      = replaceAnswer (liveFollowupStart s.gen id action s) ∧
    liveFollowupFailure s.gen id message
        (replaceAnswer (liveFollowupStart s.gen id action s))
      = replaceAnswer (liveFollowupStart s.gen id action s) ∧
    (replaceAnswer (liveFollowupStart s.gen id action s)).followups id = none := by
  have hgen : (replaceAnswer (liveFollowupStart s.gen id action s)).gen = s.gen + 1 := by
    simp only [replaceAnswer, answerShow, answerClear, liveFollowupStart]
    rw [applyIfLive_gen]
  refine ⟨?_, ?_, ?_, ?_⟩
  · simp only [liveFollowupStart, applyIfLive]
    rw [if_pos ⟨h, trivial⟩]
    simp [followupStart, mapSet]
  · exact applyIfLive_stale s.gen _ _ (by omega)
  · exact applyIfLive_stale s.gen _ _ (by omega)
  · rfl

/-- C1 witness: the concrete run for insight id `"0-0"` from a freshly
mounted renderer with an empty map. -/
theorem followup_completion_after_replace_discarded_witness :
    (AnswerArea.mk 0 true emptyFollowups).mounted = true ∧
    ((liveFollowupStart 0 ("0-0") FollowupAction.basis
        (AnswerArea.mk 0 true emptyFollowups)).followups ("0-0")
      = some { getOrEmpty emptyFollowups ("0-0") with
          loading := some FollowupAction.basis, error := none } ∧
    liveFollowupSuccess 0 ("0-0") FollowupAction.basis ("stale")
        (replaceAnswer (liveFollowupStart 0 ("0-0") FollowupAction.basis
          (AnswerArea.mk 0 true emptyFollowups)))
      = replaceAnswer (liveFollowupStart 0 ("0-0") FollowupAction.basis
          (AnswerArea.mk 0 true emptyFollowups)) ∧
    liveFollowupFailure 0 ("0-0") ("network error")
        (replaceAnswer (liveFollowupStart 0 ("0-0") FollowupAction.basis
          (AnswerArea.mk 0 true emptyFollowups)))
      = replaceAnswer (liveFollowupStart 0 ("0-0") FollowupAction.basis
          (AnswerArea.mk 0 true emptyFollowups)) ∧
    (replaceAnswer (liveFollowupStart 0 ("0-0") FollowupAction.basis
        (AnswerArea.mk 0 true emptyFollowups))).followups ("0-0") = none) :=
  ⟨rfl, followup_completion_after_replace_discarded (AnswerArea.mk 0 true emptyFollowups)
    ("0-0") FollowupAction.basis ("stale") ("network error") rfl⟩

end GA4
